import Mathlib

/-!
Verification of the DNSSEC key-generation and private-key export core
(`keygen.go` of the `dns` package).

The Go code is shallowly embedded:

* machine integers (`int`, `uint8`) become `Int`/`Nat`;
* `math/big` integers (all non-negative throughout this code) become `Nat`;
* byte slices become `List Nat` (each element a byte value);
* the type-switch over the empty `PrivateKey` interface becomes a sum type
  with an explicit `other` constructor for "any other dynamic type";
* the calls to the random source (`rsa.GenerateKey`, `ecdsa.GenerateKey`)
  are modelled by oracle parameters giving the outcome of each call;
* helpers of the repository that live outside `keygen.go`
  (`setPublicKeyRSA`, `setPublicKeyCurve`, `unpackBase64`, `Alg_str`,
  the algorithm constants) are modelled from the specification and marked
  as such in their doc comments.
-/

/-- Modelled from the spec: algorithm constant `RSAMD5` (defined elsewhere in
the repository; numeric value from the DNSSEC algorithm registry — only
distinctness of the constants matters for the properties below). -/
def RSAMD5 : Nat := 1

/-- Modelled from the spec: algorithm constant `RSASHA1`. -/
def RSASHA1 : Nat := 5

/-- Modelled from the spec: algorithm constant `RSASHA1NSEC3SHA1`. -/
def RSASHA1NSEC3SHA1 : Nat := 7

/-- Modelled from the spec: algorithm constant `RSASHA256`. -/
def RSASHA256 : Nat := 8

/-- Modelled from the spec: algorithm constant `RSASHA512`. -/
def RSASHA512 : Nat := 10

/-- Modelled from the spec: algorithm constant `ECDSAP256SHA256Y`. -/
def ECDSAP256SHA256Y : Nat := 13

/-- Modelled from the spec: algorithm constant `ECDSAP384SHA384Y`. -/
def ECDSAP384SHA384Y : Nat := 14

/-- The named elliptic curves used by the ECDSA branch of `Generate`
(`elliptic.P256()` and `elliptic.P384()`). -/
inductive Curve where
  | P256
  | P384
  deriving DecidableEq

/-- `rsa.PrivateKey` from Go's `crypto/rsa`, restricted to the fields
`keygen.go` reads: the public key `(N, E)`, the private exponent `D`, and
the two primes `Primes[0]`, `Primes[1]` (the spec's §3 guarantees exactly
two prime factors, so the slice is modelled as a pair). All values are
non-negative big integers, hence `Nat`. -/
structure RsaPrivateKey where
  N : Nat
  E : Nat
  D : Nat
  Primes : Nat × Nat
  deriving DecidableEq

/-- `ecdsa.PrivateKey` from Go's `crypto/ecdsa`, restricted to the fields
`keygen.go` reads: the curve and the public point `(X, Y)`; `D` is the
private scalar. -/
structure EcdsaPrivateKey where
  curve : Curve
  X : Nat
  Y : Nat
  D : Nat
  deriving DecidableEq

/-- The Go code declares `type PrivateKey interface{}`: any value may hide
behind it. The type switch in `PrivateKeyString` distinguishes
`*rsa.PrivateKey`, `*ecdsa.PrivateKey`, and (implicitly, by falling
through) every other dynamic type, modelled by the `other` constructor. -/
inductive PrivateKey where
  | rsa (k : RsaPrivateKey)
  | ecdsa (k : EcdsaPrivateKey)
  | other
  deriving DecidableEq

/-- Go error values that `Generate` can return. `ErrKeySize` and `ErrAlg`
are the package's sentinel errors (declared elsewhere in the repository);
`KeyGenerationFailed` is modelled from the spec: §7 names a
`KeyGenerationFailed` error kind, but no such sentinel exists in
`keygen.go`, which returns the stdlib generation error unchanged; such a
stdlib error is modelled by `underlying code` and is a distinct value from
every sentinel. -/
inductive GoError where
  | ErrKeySize
  | ErrAlg
  | KeyGenerationFailed
  | underlying (code : Nat)
  deriving DecidableEq

/-- Outcome of a call to `rsa.GenerateKey(rand.Reader, bits)`: either a
fresh key or a stdlib error (carried as a code). -/
inductive RsaOutcome where
  | ok (k : RsaPrivateKey)
  | fail (code : Nat)
  deriving DecidableEq

/-- Outcome of a call to `ecdsa.GenerateKey(c, rand.Reader)`. -/
inductive EcOutcome where
  | ok (k : EcdsaPrivateKey)
  | fail (code : Nat)
  deriving DecidableEq

/-- The `RR_DNSKEY` record, restricted to the fields relevant here: the
wire fields `Flags`, `Protocol`, `Algorithm` (all small unsigned integers)
and the public-key payload written by the generator, modelled as a byte
list. The extra fields let the frame property (what `Generate` does NOT
touch) be stated. -/
structure RR_DNSKEY where
  Flags : Nat
  Protocol : Nat
  Algorithm : Nat
  PublicKey : List Nat
  deriving DecidableEq

/-- Big-endian minimal-length byte representation of a non-negative
integer: Go's `big.Int.Bytes()` (the absolute value as a big-endian byte
slice, empty for zero, no leading zero bytes). -/
def natBytes (n : Nat) : List Nat :=
  if h : n = 0 then [] else
    have : n / 256 < n := Nat.div_lt_self (Nat.pos_of_ne_zero h) (by omega)
    natBytes (n / 256) ++ [n % 256]

/-- Big-endian byte-list to integer (used by the round-trip decoder). -/
def fromBytes (bs : List Nat) : Nat :=
  bs.foldl (fun a b => a * 256 + b) 0

/-- Modelled from the spec: the record's RSA public-key encoding
(`exponent-length-prefixed exponent+modulus`, §3). The payload is the
length of the exponent's byte string, the exponent bytes, then the modulus
bytes. The real encoder is `setPublicKeyRSA`'s helper elsewhere in the
repository. -/
def encodeRSAPub (e n : Nat) : List Nat :=
  (natBytes e).length :: (natBytes e ++ natBytes n)

/-- Modelled from the spec: the decoder matching `encodeRSAPub` — reads the
exponent length prefix and splits the remaining bytes into exponent and
modulus. -/
def decodeRSAPub (buf : List Nat) : Option (Nat × Nat) :=
  match buf with
  | [] => none
  | l :: rest => some (fromBytes (rest.take l), fromBytes (rest.drop l))

/-- Modelled from the spec: `setPublicKeyRSA` (elsewhere in the repository)
"writes the public exponent and modulus into the record's public-key field
using the record's RSA public-key encoding"; it touches no other field. -/
def setPublicKeyRSA (e n : Nat) (r : RR_DNSKEY) : RR_DNSKEY :=
  { r with PublicKey := encodeRSAPub e n }

/-- Modelled from the spec: `setPublicKeyCurve` (elsewhere in the
repository) "writes the X and Y coordinates into the record using the
record's elliptic-curve public-key encoding" (concatenated X and Y
coordinates, §3); it touches no other field. -/
def setPublicKeyCurve (x y : Nat) (r : RR_DNSKEY) : RR_DNSKEY :=
  { r with PublicKey := natBytes x ++ natBytes y }

/-- The first `switch` of `Generate` (`keygen.go` lines 23–40): per-
algorithm size validation. `none` means fall through (no early return);
note the switch has no `default` case, so an unrecognized algorithm skips
the size check entirely. `bits` is a Go `int`, hence `Int`. -/
def sizeCheck (alg : Nat) (bits : Int) : Option GoError :=
  if alg = RSAMD5 ∨ alg = RSASHA1 ∨ alg = RSASHA256 ∨ alg = RSASHA1NSEC3SHA1 then
    if bits < 512 ∨ bits > 4096 then some .ErrKeySize else none
  else if alg = RSASHA512 then
    if bits < 1024 ∨ bits > 4096 then some .ErrKeySize else none
  else if alg = ECDSAP256SHA256Y then
    if bits ≠ 256 then some .ErrKeySize else none
  else if alg = ECDSAP384SHA384Y then
    if bits ≠ 384 then some .ErrKeySize else none
  else none

/-- `RR_DNSKEY.Generate` (`keygen.go` lines 22–68). The result models Go's
`(PrivateKey, error)` pair — both components are `Option` so that the
`(nil, nil)` shape of the dummy trailing `return` is representable in the
type — together with the final state of the mutated receiver record.
`rsaO` and `ecO` are the oracles for the two stdlib generation calls; `ecO`
takes the curve chosen by the inner switch (lines 52–57). The trailing
`return nil, nil // Dummy return` of the Go source cannot be reached: the
second switch's `default` arm (the final `else`) already returns. -/
def Generate (r : RR_DNSKEY) (bits : Int) (rsaO : RsaOutcome)
    (ecO : Curve → EcOutcome) : (Option PrivateKey × Option GoError) × RR_DNSKEY :=
  match sizeCheck r.Algorithm bits with
  | some e => ((none, some e), r)
  | none =>
    if r.Algorithm = RSAMD5 ∨ r.Algorithm = RSASHA1 ∨ r.Algorithm = RSASHA256 ∨
        r.Algorithm = RSASHA512 ∨ r.Algorithm = RSASHA1NSEC3SHA1 then
      match rsaO with
      | .fail c => ((none, some (.underlying c)), r)
      | .ok k => ((some (.rsa k), none), setPublicKeyRSA k.E k.N r)
    else if r.Algorithm = ECDSAP256SHA256Y ∨ r.Algorithm = ECDSAP384SHA384Y then
      let c : Curve := if r.Algorithm = ECDSAP256SHA256Y then .P256 else .P384
      match ecO c with
      | .fail cd => ((none, some (.underlying cd)), r)
      | .ok k => ((some (.ecdsa k), none), setPublicKeyCurve k.X k.Y r)
    else ((none, some .ErrAlg), r)

/-- Modelled from the spec: the algorithm mnemonic table `Alg_str`
(elsewhere in the repository) — "external lookup from numeric algorithm
identifier to display name". A Go map lookup on a missing key yields the
empty string. -/
def Alg_str (a : Nat) : String :=
  if a = RSAMD5 then "RSAMD5"
  else if a = RSASHA1 then "RSASHA1"
  else if a = RSASHA1NSEC3SHA1 then "RSASHA1NSEC3SHA1"
  else if a = RSASHA256 then "RSASHA256"
  else if a = RSASHA512 then "RSASHA512"
  else if a = ECDSAP256SHA256Y then "ECDSAP256SHA256"
  else if a = ECDSAP384SHA384Y then "ECDSAP384SHA384"
  else ""

/-- The standard base64 alphabet character for a 6-bit index. -/
def b64Char (n : Nat) : Char :=
  "ABCDEFGHIJKLMNOPQRSTUVWXYZabcdefghijklmnopqrstuvwxyz0123456789+/".data.getD n 'A'

/-- Standard base64 of a byte list: 3-byte groups become 4 alphabet
characters; a trailing 1- or 2-byte group is padded with `=`. -/
def base64Encode : List Nat → List Char
  | [] => []
  | [a] => [b64Char (a / 4), b64Char (a % 4 * 16), '=', '=']
  | [a, b] => [b64Char (a / 4), b64Char (a % 4 * 16 + b / 16), b64Char (b % 16 * 4), '=']
  | a :: b :: c :: rest =>
    b64Char (a / 4) :: b64Char (a % 4 * 16 + b / 16) :: b64Char (b % 16 * 4 + c / 64) ::
      b64Char (c % 64) :: base64Encode rest

/-- Modelled from the spec: `unpackBase64` (elsewhere in the repository)
renders a byte slice as "standard base64" text (§6). -/
def unpackBase64 (bs : List Nat) : String :=
  ⟨base64Encode bs⟩

/-- The modular multiplicative inverse of `a` modulo `m` (the least such
residue, `0` when none exists). This is the semantics of the source's
`big.NewInt(0).Exp(a, minusone, m)` — `math/big` exponentiation with
exponent `−1`, which the spec states "is equivalent to the modular
multiplicative inverse" (§4.2). -/
def modInverse (a m : Nat) : Nat :=
  ((List.range m).find? (fun x => a * x % m == 1)).getD 0

/-- `exp1` of `PrivateKeyString` (`keygen.go` line 89):
`privateExponent mod (prime1 − 1)`. -/
def exponent1 (t : RsaPrivateKey) : Nat :=
  t.D % (t.Primes.1 - 1)

/-- `exp2` of `PrivateKeyString` (`keygen.go` line 90):
`privateExponent mod (prime2 − 1)`. -/
def exponent2 (t : RsaPrivateKey) : Nat :=
  t.D % (t.Primes.2 - 1)

/-- `coeff` of `PrivateKeyString` (`keygen.go` line 91):
`Exp(prime2, −1, prime1)`, the inverse of `prime2` modulo `prime1`. -/
def coefficient (t : RsaPrivateKey) : Nat :=
  modInverse t.Primes.2 t.Primes.1

/-- `RR_DNSKEY.PrivateKeyString` (`keygen.go` lines 73–111). The Go
function declares a named result `s string`; the type switch assigns it in
the `*rsa.PrivateKey` and `*ecdsa.PrivateKey` cases and has no `default`,
so any other dynamic type returns the zero value `""`. -/
def PrivateKeyString (r : RR_DNSKEY) (p : PrivateKey) : String :=
  match p with
  | .rsa t =>
    let algorithm : String := Nat.repr r.Algorithm ++ " (" ++ Alg_str r.Algorithm ++ ")"
    let modulus := unpackBase64 (natBytes t.N)
    let publicExponent := unpackBase64 (natBytes t.E)
    let privateExponent := unpackBase64 (natBytes t.D)
    let prime1 := unpackBase64 (natBytes t.Primes.1)
    let prime2 := unpackBase64 (natBytes t.Primes.2)
    "Private-key-format: v1.3\n" ++
      "Algorithm: " ++ algorithm ++ "\n" ++
      "Modules: " ++ modulus ++ "\n" ++
      "PublicExponent: " ++ publicExponent ++ "\n" ++
      "PrivateExponent: " ++ privateExponent ++ "\n" ++
      "Prime1: " ++ prime1 ++ "\n" ++
      "Prime2: " ++ prime2 ++ "\n" ++
      "Exponent1: " ++ unpackBase64 (natBytes (exponent1 t)) ++ "\n" ++
      "Exponent2: " ++ unpackBase64 (natBytes (exponent2 t)) ++ "\n" ++
      "Coefficient: " ++ unpackBase64 (natBytes (coefficient t)) ++ "\n"
  | .ecdsa _ => "TODO"
  | .other => ""

lemma sizeCheck_rsa4 (alg : Nat) (bits : Int)
    (h : alg = RSAMD5 ∨ alg = RSASHA1 ∨ alg = RSASHA256 ∨ alg = RSASHA1NSEC3SHA1) :
    sizeCheck alg bits = if bits < 512 ∨ bits > 4096 then some .ErrKeySize else none := by
  unfold sizeCheck
  rw [if_pos h]

lemma sizeCheck_sha512 (bits : Int) :
    sizeCheck RSASHA512 bits = if bits < 1024 ∨ bits > 4096 then some .ErrKeySize else none := by
  unfold sizeCheck
  norm_num [RSAMD5, RSASHA1, RSASHA256, RSASHA1NSEC3SHA1, RSASHA512]

lemma sizeCheck_p256 (bits : Int) :
    sizeCheck ECDSAP256SHA256Y bits = if bits ≠ 256 then some .ErrKeySize else none := by
  unfold sizeCheck
  norm_num [RSAMD5, RSASHA1, RSASHA256, RSASHA1NSEC3SHA1, RSASHA512, ECDSAP256SHA256Y]

lemma sizeCheck_p384 (bits : Int) :
    sizeCheck ECDSAP384SHA384Y bits = if bits ≠ 384 then some .ErrKeySize else none := by
  unfold sizeCheck
  norm_num [RSAMD5, RSASHA1, RSASHA256, RSASHA1NSEC3SHA1, RSASHA512, ECDSAP256SHA256Y,
    ECDSAP384SHA384Y]

lemma sizeCheck_unknown (alg : Nat) (bits : Int)
    (h : alg ≠ RSAMD5 ∧ alg ≠ RSASHA1 ∧ alg ≠ RSASHA256 ∧ alg ≠ RSASHA1NSEC3SHA1 ∧
      alg ≠ RSASHA512 ∧ alg ≠ ECDSAP256SHA256Y ∧ alg ≠ ECDSAP384SHA384Y) :
    sizeCheck alg bits = none := by
  obtain ⟨h1, h2, h3, h4, h5, h6, h7⟩ := h
  unfold sizeCheck
  simp [h1, h2, h3, h4, h5, h6, h7]

lemma Generate_of_sizeCheck_some (r : RR_DNSKEY) (bits : Int) (rsaO : RsaOutcome)
    (ecO : Curve → EcOutcome) (e : GoError) (h : sizeCheck r.Algorithm bits = some e) :
    Generate r bits rsaO ecO = ((none, some e), r) := by
  unfold Generate
  rw [h]

lemma Generate_rsa_branch (r : RR_DNSKEY) (bits : Int) (rsaO : RsaOutcome)
    (ecO : Curve → EcOutcome)
    (h : r.Algorithm = RSAMD5 ∨ r.Algorithm = RSASHA1 ∨ r.Algorithm = RSASHA256 ∨
      r.Algorithm = RSASHA512 ∨ r.Algorithm = RSASHA1NSEC3SHA1)
    (hn : sizeCheck r.Algorithm bits = none) :
    Generate r bits rsaO ecO =
      match rsaO with
      | .fail c => ((none, some (.underlying c)), r)
      | .ok k => ((some (.rsa k), none), setPublicKeyRSA k.E k.N r) := by
  unfold Generate
  rw [hn, if_pos h]

lemma Generate_ec_branch (r : RR_DNSKEY) (bits : Int) (rsaO : RsaOutcome)
    (ecO : Curve → EcOutcome)
    (h : r.Algorithm = ECDSAP256SHA256Y ∨ r.Algorithm = ECDSAP384SHA384Y)
    (hn : sizeCheck r.Algorithm bits = none) :
    Generate r bits rsaO ecO =
      match ecO (if r.Algorithm = ECDSAP256SHA256Y then .P256 else .P384) with
      | .fail cd => ((none, some (.underlying cd)), r)
      | .ok k => ((some (.ecdsa k), none), setPublicKeyCurve k.X k.Y r) := by
  have hne : ¬(r.Algorithm = RSAMD5 ∨ r.Algorithm = RSASHA1 ∨ r.Algorithm = RSASHA256 ∨
      r.Algorithm = RSASHA512 ∨ r.Algorithm = RSASHA1NSEC3SHA1) := by
    rcases h with h | h <;> rw [h] <;>
      norm_num [RSAMD5, RSASHA1, RSASHA256, RSASHA512, RSASHA1NSEC3SHA1, ECDSAP256SHA256Y,
        ECDSAP384SHA384Y]
  unfold Generate
  rw [hn, if_neg hne, if_pos h]

lemma Generate_unknown_branch (r : RR_DNSKEY) (bits : Int) (rsaO : RsaOutcome)
    (ecO : Curve → EcOutcome)
    (h : r.Algorithm ≠ RSAMD5 ∧ r.Algorithm ≠ RSASHA1 ∧ r.Algorithm ≠ RSASHA256 ∧
      r.Algorithm ≠ RSASHA1NSEC3SHA1 ∧ r.Algorithm ≠ RSASHA512 ∧
      r.Algorithm ≠ ECDSAP256SHA256Y ∧ r.Algorithm ≠ ECDSAP384SHA384Y) :
    Generate r bits rsaO ecO = ((none, some .ErrAlg), r) := by
  obtain ⟨h1, h2, h3, h4, h5, h6, h7⟩ := h
  unfold Generate
  rw [sizeCheck_unknown _ _ ⟨h1, h2, h3, h4, h5, h6, h7⟩]
  simp [h1, h2, h3, h4, h5, h6, h7]

/-- C3: For every RSA-family algorithm, `Generate` fails with `ErrKeySize`
exactly when `bits` is outside the algorithm's allowed range — below 512 or
above 4096 for RSA-MD5, RSA-SHA1, RSA-SHA256 and RSA-SHA1-with-NSEC3,
below 1024 or above 4096 for RSA-SHA512 — the boundary values (512/1024
and 4096) pass validation, and an out-of-range failure happens before any
key material is produced: the result is independent of the generation
oracles and the record is returned unchanged. -/
theorem generate_rsa_size_validation (r : RR_DNSKEY) (bits : Int) (rsaO : RsaOutcome)
    (ecO : Curve → EcOutcome) :
    ((r.Algorithm = RSAMD5 ∨ r.Algorithm = RSASHA1 ∨ r.Algorithm = RSASHA256 ∨
        r.Algorithm = RSASHA1NSEC3SHA1) →
      (((Generate r bits rsaO ecO).1.2 = some .ErrKeySize) ↔ (bits < 512 ∨ bits > 4096)) ∧
      ((bits < 512 ∨ bits > 4096) → Generate r bits rsaO ecO = ((none, some .ErrKeySize), r)) ∧
      sizeCheck r.Algorithm 512 = none ∧ sizeCheck r.Algorithm 4096 = none) ∧
    (r.Algorithm = RSASHA512 →
      (((Generate r bits rsaO ecO).1.2 = some .ErrKeySize) ↔ (bits < 1024 ∨ bits > 4096)) ∧
      ((bits < 1024 ∨ bits > 4096) → Generate r bits rsaO ecO = ((none, some .ErrKeySize), r)) ∧
      sizeCheck r.Algorithm 1024 = none ∧ sizeCheck r.Algorithm 4096 = none) := by
  constructor
  · intro h4
    have hmem : r.Algorithm = RSAMD5 ∨ r.Algorithm = RSASHA1 ∨ r.Algorithm = RSASHA256 ∨
        r.Algorithm = RSASHA512 ∨ r.Algorithm = RSASHA1NSEC3SHA1 := by tauto
    have hb512 : sizeCheck r.Algorithm 512 = none := by
      rw [sizeCheck_rsa4 _ _ h4]; norm_num
    have hb4096 : sizeCheck r.Algorithm 4096 = none := by
      rw [sizeCheck_rsa4 _ _ h4]; norm_num
    by_cases hb : bits < 512 ∨ bits > 4096
    · have hg := Generate_of_sizeCheck_some r bits rsaO ecO .ErrKeySize
        (by rw [sizeCheck_rsa4 _ _ h4, if_pos hb])
      exact ⟨by rw [hg]; simp [hb], fun _ => hg, hb512, hb4096⟩
    · have hg := Generate_rsa_branch r bits rsaO ecO hmem
        (by rw [sizeCheck_rsa4 _ _ h4, if_neg hb])
      refine ⟨?_, fun hb2 => absurd hb2 hb, hb512, hb4096⟩
      rw [hg]
      cases rsaO <;> simp [hb]
  · intro h512
    have hmem : r.Algorithm = RSAMD5 ∨ r.Algorithm = RSASHA1 ∨ r.Algorithm = RSASHA256 ∨
        r.Algorithm = RSASHA512 ∨ r.Algorithm = RSASHA1NSEC3SHA1 := by tauto
    have hb1024 : sizeCheck r.Algorithm 1024 = none := by
      rw [h512, sizeCheck_sha512]; norm_num
    have hb4096 : sizeCheck r.Algorithm 4096 = none := by
      rw [h512, sizeCheck_sha512]; norm_num
    by_cases hb : bits < 1024 ∨ bits > 4096
    · have hg := Generate_of_sizeCheck_some r bits rsaO ecO .ErrKeySize
        (by rw [h512, sizeCheck_sha512, if_pos hb])
      exact ⟨by rw [hg]; simp [hb], fun _ => hg, hb1024, hb4096⟩
    · have hg := Generate_rsa_branch r bits rsaO ecO hmem
        (by rw [h512, sizeCheck_sha512, if_neg hb])
      refine ⟨?_, fun hb2 => absurd hb2 hb, hb1024, hb4096⟩
      rw [hg]
      cases rsaO <;> simp [hb]

/-- Witness for C3: a concrete RSA-SHA256 record with `bits = 511` fails
with `ErrKeySize` and leaves the record unchanged. -/
theorem generate_rsa_size_validation_witness :
    Generate ⟨256, 3, 8, []⟩ 511 (.fail 0) (fun _ => .fail 0) =
      ((none, some .ErrKeySize), ⟨256, 3, 8, []⟩) :=
  ((generate_rsa_size_validation ⟨256, 3, 8, []⟩ 511 (.fail 0) (fun _ => .fail 0)).1
    (by norm_num [RSAMD5, RSASHA1, RSASHA256, RSASHA1NSEC3SHA1])).2.1 (by norm_num)

/-- C4: For the ECDSA algorithms, `Generate` succeeds only for the exact
bit size implied by the algorithm: for ECDSA-P256-SHA256 every `bits`
other than 256 fails with `ErrKeySize` (before touching the oracles, with
the record unchanged), and for ECDSA-P384-SHA384 every `bits` other than
384; when the size matches, the outcome is that of the generation oracle
on the curve selected from the algorithm (P-256 resp. P-384), not from
`bits`. -/
theorem generate_ecdsa_size_validation (r : RR_DNSKEY) (bits : Int) (rsaO : RsaOutcome)
    (ecO : Curve → EcOutcome) :
    (r.Algorithm = ECDSAP256SHA256Y →
      (((Generate r bits rsaO ecO).1.2 = some .ErrKeySize) ↔ bits ≠ 256) ∧
      (bits ≠ 256 → Generate r bits rsaO ecO = ((none, some .ErrKeySize), r)) ∧
      (bits = 256 → Generate r bits rsaO ecO =
        match ecO .P256 with
        | .fail cd => ((none, some (.underlying cd)), r)
        | .ok k => ((some (.ecdsa k), none), setPublicKeyCurve k.X k.Y r))) ∧
    (r.Algorithm = ECDSAP384SHA384Y →
      (((Generate r bits rsaO ecO).1.2 = some .ErrKeySize) ↔ bits ≠ 384) ∧
      (bits ≠ 384 → Generate r bits rsaO ecO = ((none, some .ErrKeySize), r)) ∧
      (bits = 384 → Generate r bits rsaO ecO =
        match ecO .P384 with
        | .fail cd => ((none, some (.underlying cd)), r)
        | .ok k => ((some (.ecdsa k), none), setPublicKeyCurve k.X k.Y r))) := by
  constructor
  · intro h256
    by_cases hb : bits = 256
    · have hg := Generate_ec_branch r bits rsaO ecO (Or.inl h256)
        (by rw [h256, sizeCheck_p256, if_neg (by simp [hb])])
      rw [h256, if_pos rfl] at hg
      refine ⟨?_, fun hb2 => absurd hb hb2, fun _ => hg⟩
      rw [hg]
      cases ecO .P256 <;> simp [hb]
    · have hg := Generate_of_sizeCheck_some r bits rsaO ecO .ErrKeySize
        (by rw [h256, sizeCheck_p256, if_pos hb])
      exact ⟨by rw [hg]; simp [hb], fun _ => hg, fun hb2 => absurd hb2 hb⟩
  · intro h384
    have hne : r.Algorithm ≠ ECDSAP256SHA256Y := by
      rw [h384]; norm_num [ECDSAP256SHA256Y, ECDSAP384SHA384Y]
    by_cases hb : bits = 384
    · have hg := Generate_ec_branch r bits rsaO ecO (Or.inr h384)
        (by rw [h384, sizeCheck_p384, if_neg (by simp [hb])])
      rw [if_neg hne] at hg
      refine ⟨?_, fun hb2 => absurd hb hb2, fun _ => hg⟩
      rw [hg]
      cases ecO .P384 <;> simp [hb]
    · have hg := Generate_of_sizeCheck_some r bits rsaO ecO .ErrKeySize
        (by rw [h384, sizeCheck_p384, if_pos hb])
      exact ⟨by rw [hg]; simp [hb], fun _ => hg, fun hb2 => absurd hb2 hb⟩

/-- Witness for C4: a concrete ECDSA-P256-SHA256 record with `bits = 255`
fails with `ErrKeySize`, and with `bits = 256` the result is the P-256
oracle's key. -/
theorem generate_ecdsa_size_validation_witness :
    Generate ⟨256, 3, 13, []⟩ 255 (.fail 0) (fun _ => .ok ⟨.P256, 4, 5, 6⟩) =
      ((none, some .ErrKeySize), ⟨256, 3, 13, []⟩) ∧
    Generate ⟨256, 3, 13, []⟩ 256 (.fail 0) (fun _ => .ok ⟨.P256, 4, 5, 6⟩) =
      ((some (.ecdsa ⟨.P256, 4, 5, 6⟩), none), setPublicKeyCurve 4 5 ⟨256, 3, 13, []⟩) :=
  ⟨((generate_ecdsa_size_validation ⟨256, 3, 13, []⟩ 255 (.fail 0)
      (fun _ => .ok ⟨.P256, 4, 5, 6⟩)).1 (by norm_num [ECDSAP256SHA256Y])).2.1 (by norm_num),
   ((generate_ecdsa_size_validation ⟨256, 3, 13, []⟩ 256 (.fail 0)
      (fun _ => .ok ⟨.P256, 4, 5, 6⟩)).1 (by norm_num [ECDSAP256SHA256Y])).2.2 rfl⟩

/-- C5: `Generate` on a record whose algorithm is not one of the seven
recognized algorithms fails with `ErrAlg` for every `bits` (the record
unchanged), never with `ErrKeySize`: the size check is skipped entirely. -/
theorem generate_unknown_algorithm (r : RR_DNSKEY) (bits : Int) (rsaO : RsaOutcome)
    (ecO : Curve → EcOutcome)
    (h : r.Algorithm ∉ [RSAMD5, RSASHA1, RSASHA256, RSASHA1NSEC3SHA1, RSASHA512,
      ECDSAP256SHA256Y, ECDSAP384SHA384Y]) :
    Generate r bits rsaO ecO = ((none, some .ErrAlg), r) ∧
    (Generate r bits rsaO ecO).1.2 ≠ some .ErrKeySize ∧
    sizeCheck r.Algorithm bits = none := by
  simp only [List.mem_cons, List.not_mem_nil, or_false, not_or] at h
  obtain ⟨h1, h2, h3, h4, h5, h6, h7⟩ := h
  have hg := Generate_unknown_branch r bits rsaO ecO ⟨h1, h2, h3, h4, h5, h6, h7⟩
  exact ⟨hg, by rw [hg]; simp, sizeCheck_unknown _ _ ⟨h1, h2, h3, h4, h5, h6, h7⟩⟩

/-- Witness for C5: algorithm 0 with a huge out-of-range `bits` still
fails with `ErrAlg`, not `ErrKeySize`. -/
theorem generate_unknown_algorithm_witness :
    Generate ⟨256, 3, 0, []⟩ 99999 (.fail 0) (fun _ => .fail 0) =
      ((none, some .ErrAlg), ⟨256, 3, 0, []⟩) :=
  (generate_unknown_algorithm ⟨256, 3, 0, []⟩ 99999 (.fail 0) (fun _ => .fail 0)
    (by decide)).1

/-- C10: `Generate` always returns exactly one of two outcomes — a key with
no error, or no key with an error; the `(nil, nil)` shape of the dummy
trailing return is never produced (every path returns from inside one of
the two switches). -/
theorem generate_outcome_dichotomy (r : RR_DNSKEY) (bits : Int) (rsaO : RsaOutcome)
    (ecO : Curve → EcOutcome) :
    (∃ k, (Generate r bits rsaO ecO).1 = (some k, none)) ∨
    (∃ e, (Generate r bits rsaO ecO).1 = (none, some e)) := by
  by_cases h1 : r.Algorithm = RSAMD5 ∨ r.Algorithm = RSASHA1 ∨ r.Algorithm = RSASHA256 ∨
      r.Algorithm = RSASHA512 ∨ r.Algorithm = RSASHA1NSEC3SHA1
  · cases hsc : sizeCheck r.Algorithm bits with
    | some e =>
      rw [Generate_of_sizeCheck_some r bits rsaO ecO e hsc]
      exact Or.inr ⟨e, rfl⟩
    | none =>
      rw [Generate_rsa_branch r bits rsaO ecO h1 hsc]
      cases rsaO with
      | ok k => exact Or.inl ⟨.rsa k, rfl⟩
      | fail c => exact Or.inr ⟨.underlying c, rfl⟩
  · by_cases h2 : r.Algorithm = ECDSAP256SHA256Y ∨ r.Algorithm = ECDSAP384SHA384Y
    · cases hsc : sizeCheck r.Algorithm bits with
      | some e =>
        rw [Generate_of_sizeCheck_some r bits rsaO ecO e hsc]
        exact Or.inr ⟨e, rfl⟩
      | none =>
        rw [Generate_ec_branch r bits rsaO ecO h2 hsc]
        cases ecO (if r.Algorithm = ECDSAP256SHA256Y then .P256 else .P384) with
        | ok k => exact Or.inl ⟨.ecdsa k, rfl⟩
        | fail c => exact Or.inr ⟨.underlying c, rfl⟩
    · push_neg at h1 h2
      rw [Generate_unknown_branch r bits rsaO ecO
        ⟨h1.1, h1.2.1, h1.2.2.1, h1.2.2.2.2, h1.2.2.2.1, h2.1, h2.2⟩]
      exact Or.inr ⟨.ErrAlg, rfl⟩

/-- C8: whenever `Generate` fails the record is returned unmodified, and
whenever it succeeds the only field that changes is `PublicKey`; in every
case `Algorithm`, `Flags` and `Protocol` are untouched. -/
theorem generate_frame (r : RR_DNSKEY) (bits : Int) (rsaO : RsaOutcome)
    (ecO : Curve → EcOutcome) :
    ((Generate r bits rsaO ecO).1.2.isSome → (Generate r bits rsaO ecO).2 = r) ∧
    ((Generate r bits rsaO ecO).1.1.isSome →
      ∃ pk, (Generate r bits rsaO ecO).2 = { r with PublicKey := pk }) ∧
    (Generate r bits rsaO ecO).2.Algorithm = r.Algorithm ∧
    (Generate r bits rsaO ecO).2.Flags = r.Flags ∧
    (Generate r bits rsaO ecO).2.Protocol = r.Protocol := by
  by_cases h1 : r.Algorithm = RSAMD5 ∨ r.Algorithm = RSASHA1 ∨ r.Algorithm = RSASHA256 ∨
      r.Algorithm = RSASHA512 ∨ r.Algorithm = RSASHA1NSEC3SHA1
  · cases hsc : sizeCheck r.Algorithm bits with
    | some e =>
      rw [Generate_of_sizeCheck_some r bits rsaO ecO e hsc]
      exact ⟨fun _ => rfl, fun hk => absurd hk (by simp), rfl, rfl, rfl⟩
    | none =>
      rw [Generate_rsa_branch r bits rsaO ecO h1 hsc]
      cases rsaO with
      | ok k =>
        exact ⟨fun he => absurd he (by simp), fun _ => ⟨encodeRSAPub k.E k.N, rfl⟩,
          rfl, rfl, rfl⟩
      | fail c => exact ⟨fun _ => rfl, fun hk => absurd hk (by simp), rfl, rfl, rfl⟩
  · by_cases h2 : r.Algorithm = ECDSAP256SHA256Y ∨ r.Algorithm = ECDSAP384SHA384Y
    · cases hsc : sizeCheck r.Algorithm bits with
      | some e =>
        rw [Generate_of_sizeCheck_some r bits rsaO ecO e hsc]
        exact ⟨fun _ => rfl, fun hk => absurd hk (by simp), rfl, rfl, rfl⟩
      | none =>
        rw [Generate_ec_branch r bits rsaO ecO h2 hsc]
        cases ecO (if r.Algorithm = ECDSAP256SHA256Y then .P256 else .P384) with
        | ok k =>
          exact ⟨fun he => absurd he (by simp), fun _ => ⟨natBytes k.X ++ natBytes k.Y, rfl⟩,
            rfl, rfl, rfl⟩
        | fail c => exact ⟨fun _ => rfl, fun hk => absurd hk (by simp), rfl, rfl, rfl⟩
    · push_neg at h1 h2
      rw [Generate_unknown_branch r bits rsaO ecO
        ⟨h1.1, h1.2.1, h1.2.2.1, h1.2.2.2.2, h1.2.2.2.1, h2.1, h2.2⟩]
      exact ⟨fun _ => rfl, fun hk => absurd hk (by simp), rfl, rfl, rfl⟩

/-- Witness for C8: a successful concrete RSA-SHA256 generation mutates
only the `PublicKey` field of the record. -/
theorem generate_frame_witness :
    ∃ pk, (Generate ⟨256, 3, 8, []⟩ 512 (.ok ⟨35, 5, 11, (7, 5)⟩)
      (fun _ => .fail 0)).2 = ⟨256, 3, 8, pk⟩ :=
  (generate_frame ⟨256, 3, 8, []⟩ 512 (.ok ⟨35, 5, 11, (7, 5)⟩)
    (fun _ => .fail 0)).2.1 (by decide)

/-- Counterexample for C7: with a concrete RSA-SHA256 record, valid
`bits = 512`, and a stdlib generation failure (error code 7), `Generate`
returns that raw underlying error itself — not the distinguished
`KeyGenerationFailed` the claim promises — while leaving the record
untouched. -/
theorem generate_failure_raw_error_cex :
    Generate ⟨256, 3, 8, []⟩ 512 (.fail 7) (fun _ => .fail 7) =
      ((none, some (.underlying 7)), ⟨256, 3, 8, []⟩) ∧
    GoError.underlying 7 ≠ GoError.KeyGenerationFailed := by
  constructor
  · rfl
  · decide

/-- C7 (amended): when the underlying generation call fails during
`Generate`, the raw stdlib error is propagated unchanged to the caller
(there is no distinguished `KeyGenerationFailed` wrapping), and the
record — in particular its public-key field — is left untouched. Both the
RSA and the ECDSA branch behave this way. -/
theorem generate_failure_raw_error (r : RR_DNSKEY) (bits : Int) (c : Nat)
    (rsaO : RsaOutcome) (ecO : Curve → EcOutcome)
    (hn : sizeCheck r.Algorithm bits = none) :
    ((r.Algorithm = RSAMD5 ∨ r.Algorithm = RSASHA1 ∨ r.Algorithm = RSASHA256 ∨
        r.Algorithm = RSASHA512 ∨ r.Algorithm = RSASHA1NSEC3SHA1) →
      Generate r bits (.fail c) ecO = ((none, some (.underlying c)), r)) ∧
    ((r.Algorithm = ECDSAP256SHA256Y ∨ r.Algorithm = ECDSAP384SHA384Y) →
      Generate r bits rsaO (fun _ => .fail c) = ((none, some (.underlying c)), r)) := by
  constructor
  · intro h
    rw [Generate_rsa_branch r bits (.fail c) ecO h hn]
  · intro h
    rw [Generate_ec_branch r bits rsaO (fun _ => .fail c) h hn]

/-- Witness for C7's amended theorem: a concrete ECDSA-P256 generation
failure with code 3 comes back as `underlying 3` with the record intact. -/
theorem generate_failure_raw_error_witness :
    Generate ⟨256, 3, 13, []⟩ 256 (.fail 9) (fun _ => .fail 3) =
      ((none, some (.underlying 3)), ⟨256, 3, 13, []⟩) :=
  (generate_failure_raw_error ⟨256, 3, 13, []⟩ 256 3 (.fail 9) (fun _ => .fail 3)
    (by decide)).2 (by decide)

lemma fromBytes_append_singleton (l : List Nat) (b : Nat) :
    fromBytes (l ++ [b]) = fromBytes l * 256 + b := by
  simp [fromBytes, List.foldl_append]

/-- Decoding the big-endian byte representation recovers the integer. -/
lemma fromBytes_natBytes (n : Nat) : fromBytes (natBytes n) = n := by
  induction n using Nat.strong_induction_on with
  | _ n ih =>
    rw [natBytes]
    by_cases h : n = 0
    · simp [h, fromBytes]
    · rw [dif_neg h, fromBytes_append_singleton,
        ih (n / 256) (Nat.div_lt_self (Nat.pos_of_ne_zero h) (by omega))]
      have := Nat.div_add_mod n 256
      omega

lemma decodeRSAPub_encodeRSAPub (e n : Nat) :
    decodeRSAPub (encodeRSAPub e n) = some (e, n) := by
  show some ((natBytes e ++ natBytes n).take (natBytes e).length |> fromBytes,
      (natBytes e ++ natBytes n).drop (natBytes e).length |> fromBytes) = some (e, n)
  rw [List.take_left, List.drop_left, fromBytes_natBytes, fromBytes_natBytes]

/-- C9: after every successful `Generate` call with an RSA-family
algorithm, decoding the record's public-key payload with the record's RSA
public-key encoding yields exactly the (public exponent, modulus) pair of
the returned private key's public counterpart. -/
theorem generate_rsa_roundtrip (r : RR_DNSKEY) (bits : Int) (ecO : Curve → EcOutcome)
    (k : RsaPrivateKey)
    (h : r.Algorithm = RSAMD5 ∨ r.Algorithm = RSASHA1 ∨ r.Algorithm = RSASHA256 ∨
      r.Algorithm = RSASHA512 ∨ r.Algorithm = RSASHA1NSEC3SHA1)
    (hn : sizeCheck r.Algorithm bits = none) :
    (Generate r bits (.ok k) ecO).1.1 = some (.rsa k) ∧
    decodeRSAPub ((Generate r bits (.ok k) ecO).2).PublicKey = some (k.E, k.N) := by
  rw [Generate_rsa_branch r bits (.ok k) ecO h hn]
  exact ⟨rfl, by simp [setPublicKeyRSA, decodeRSAPub_encodeRSAPub]⟩

/-- Witness for C9: a concrete toy RSA key (N = 35, E = 5) round-trips
through the record payload. -/
theorem generate_rsa_roundtrip_witness :
    decodeRSAPub ((Generate ⟨256, 3, 8, []⟩ 512 (.ok ⟨35, 5, 11, (7, 5)⟩)
      (fun _ => .fail 0)).2).PublicKey = some (5, 35) :=
  (generate_rsa_roundtrip ⟨256, 3, 8, []⟩ 512 (fun _ => .fail 0) ⟨35, 5, 11, (7, 5)⟩
    (by norm_num [RSAMD5, RSASHA1, RSASHA256, RSASHA512, RSASHA1NSEC3SHA1]) (by decide)).2

lemma one_mod_eq_one_of_ne_one {m : Nat} (h : m ≠ 1) : 1 % m = 1 := by
  match m, h with
  | 0, _ => rfl
  | n + 2, _ => exact Nat.mod_eq_of_lt (by omega)

lemma modInverse_mul (a m : Nat) (h : ∃ y, y < m ∧ a * y % m = 1) :
    (modInverse a m * a) % m = 1 % m := by
  obtain ⟨y, hy, hay⟩ := h
  unfold modInverse
  cases hf : (List.range m).find? (fun x => a * x % m == 1) with
  | none =>
    rw [List.find?_eq_none] at hf
    exact absurd (by simpa using hay) (by simpa using hf y (List.mem_range.mpr hy))
  | some z =>
    have hz : a * z % m = 1 := by simpa using List.find?_some hf
    have hm1 : m ≠ 1 := by
      rintro rfl
      simp [Nat.mod_one] at hz
    rw [Option.getD_some, Nat.mul_comm, hz, one_mod_eq_one_of_ne_one hm1]

/-- C1: for every RSA private key whose two primes really are distinct
primes, the CRT values exported by `PrivateKeyString` satisfy
`exponent1 = d mod (p − 1)`, `exponent2 = d mod (q − 1)`, and
`coefficient · prime2 ≡ 1 (mod prime1)` — the coefficient is the modular
multiplicative inverse of `prime2` modulo `prime1`. -/
theorem rsa_crt_parameters (t : RsaPrivateKey) (hp : Nat.Prime t.Primes.1)
    (hq : Nat.Prime t.Primes.2) (hne : t.Primes.1 ≠ t.Primes.2) :
    exponent1 t = t.D % (t.Primes.1 - 1) ∧
    exponent2 t = t.D % (t.Primes.2 - 1) ∧
    (coefficient t * t.Primes.2) % t.Primes.1 = 1 % t.Primes.1 := by
  refine ⟨rfl, rfl, ?_⟩
  haveI := Fact.mk hp
  haveI : NeZero t.Primes.1 := ⟨hp.ne_zero⟩
  apply modInverse_mul
  have hqz : (t.Primes.2 : ZMod t.Primes.1) ≠ 0 := by
    rw [Ne, ZMod.natCast_zmod_eq_zero_iff_dvd]
    intro hdvd
    exact hne ((Nat.prime_dvd_prime_iff_eq hp hq).mp hdvd)
  refine ⟨((t.Primes.2 : ZMod t.Primes.1)⁻¹).val, ZMod.val_lt _, ?_⟩
  have hmul : ((t.Primes.2 * ((t.Primes.2 : ZMod t.Primes.1)⁻¹).val : ℕ) :
      ZMod t.Primes.1) = ((1 : ℕ) : ZMod t.Primes.1) := by
    push_cast
    rw [ZMod.natCast_rightInverse _]
    exact mul_inv_cancel₀ hqz
  have h2 := (ZMod.natCast_eq_natCast_iff' _ _ _).mp hmul
  rwa [Nat.mod_eq_of_lt hp.one_lt] at h2

/-- Witness for C1: the toy key N = 15, E = 3, D = 7, primes (5, 3) — the
inverse of 3 modulo 5 is 2, and indeed 2·3 ≡ 1 (mod 5). -/
theorem rsa_crt_parameters_witness :
    exponent1 ⟨15, 3, 7, (5, 3)⟩ = 3 ∧ exponent2 ⟨15, 3, 7, (5, 3)⟩ = 1 ∧
    (coefficient ⟨15, 3, 7, (5, 3)⟩ * 3) % 5 = 1 % 5 := by
  have h := rsa_crt_parameters ⟨15, 3, 7, (5, 3)⟩ (by norm_num) (by norm_num) (by decide)
  exact ⟨by decide, by decide, h.2.2⟩

/-- Counterexample for C6: for a private key that is neither an RSA nor an
ECDSA key, `PrivateKeyString` returns exactly the empty string (the named
result `s` keeps its zero value because the type switch has no default) —
it does not fail loudly. -/
theorem privateKeyString_other_empty_cex :
    PrivateKeyString ⟨256, 3, 8, []⟩ .other = "" := rfl

/-- C6 (amended): `PrivateKeyString` is failure-free and non-empty for the
recognized key variants — for RSA keys the v1.3 text, for ECDSA keys the
placeholder `"TODO"` — but for a private key of any other variant it
returns the empty string rather than reporting an internal-contract
error. -/
theorem privateKeyString_empty_only_for_unknown (r : RR_DNSKEY) (t : RsaPrivateKey)
    (k : EcdsaPrivateKey) :
    PrivateKeyString r (.rsa t) ≠ "" ∧
    PrivateKeyString r (.ecdsa k) = "TODO" ∧ ("TODO" : String) ≠ "" ∧
    PrivateKeyString r .other = "" := by
  refine ⟨?_, rfl, by decide, rfl⟩
  intro h
  have hd := congrArg String.data h
  simp [PrivateKeyString, String.data_append, List.append_assoc] at hd

/-- Split a character list at newline characters (the separators are
dropped; a trailing newline yields a final empty segment). Used to state
the line structure of the exported text. -/
def splitOnNl : List Char → List (List Char)
  | [] => [[]]
  | c :: cs =>
    if c = '\n' then [] :: splitOnNl cs
    else
      match splitOnNl cs with
      | [] => [[c]]
      | l :: ls => (c :: l) :: ls

lemma splitOnNl_append (l rest : List Char) (h : '\n' ∉ l) :
    splitOnNl (l ++ '\n' :: rest) = l :: splitOnNl rest := by
  induction l with
  | nil => simp [splitOnNl]
  | cons c cs ih =>
    have hc : c ≠ '\n' := fun he => h (by rw [he]; exact List.mem_cons_self _ _)
    have hcs : '\n' ∉ cs := fun hm => h (List.mem_cons_of_mem _ hm)
    rw [List.cons_append, splitOnNl, if_neg hc, ih hcs]

/-- `splitOnNl` over `line ++ "\n" ++ rest` peels off the newline-free
`line`. -/
lemma splitOnNl_line (s t : String) (h : '\n' ∉ s.data) :
    splitOnNl (s ++ "\n" ++ t).data = s.data :: splitOnNl t.data := by
  rw [String.data_append, String.data_append]
  rw [show ("\n" : String).data = ['\n'] from rfl, List.append_assoc,
    List.singleton_append]
  exact splitOnNl_append s.data t.data h

lemma getD_mem_or_default (l : List Char) (n : Nat) (d : Char) :
    l.getD n d ∈ l ∨ l.getD n d = d := by
  induction l generalizing n with
  | nil => right; simp [List.getD]
  | cons a as ih =>
    cases n with
    | zero => left; simp
    | succ m =>
      rw [List.getD_cons_succ]
      rcases ih m with hm | hd
      · exact Or.inl (List.mem_cons_of_mem _ hm)
      · exact Or.inr hd

lemma b64Char_ne_nl (n : Nat) : b64Char n ≠ '\n' := by
  unfold b64Char
  rcases getD_mem_or_default
    "ABCDEFGHIJKLMNOPQRSTUVWXYZabcdefghijklmnopqrstuvwxyz0123456789+/".data n 'A' with
    hm | he
  · intro heq
    rw [heq] at hm
    revert hm
    decide
  · rw [he]
    decide

lemma base64Encode_ne_nl (bs : List Nat) : '\n' ∉ base64Encode bs := by
  induction bs using base64Encode.induct with
  | case1 =>
    intro hm
    exact List.not_mem_nil _ hm
  | case2 a =>
    intro hm
    simp only [base64Encode] at hm
    rcases List.mem_cons.mp hm with h | hm
    · exact b64Char_ne_nl _ h.symm
    rcases List.mem_cons.mp hm with h | hm
    · exact b64Char_ne_nl _ h.symm
    rcases List.mem_cons.mp hm with h | hm
    · exact absurd h (by decide)
    rcases List.mem_cons.mp hm with h | hm
    · exact absurd h (by decide)
    exact List.not_mem_nil _ hm
  | case3 a b =>
    intro hm
    simp only [base64Encode] at hm
    rcases List.mem_cons.mp hm with h | hm
    · exact b64Char_ne_nl _ h.symm
    rcases List.mem_cons.mp hm with h | hm
    · exact b64Char_ne_nl _ h.symm
    rcases List.mem_cons.mp hm with h | hm
    · exact b64Char_ne_nl _ h.symm
    rcases List.mem_cons.mp hm with h | hm
    · exact absurd h (by decide)
    exact List.not_mem_nil _ hm
  | case4 a b c rest ih =>
    intro hm
    simp only [base64Encode] at hm
    rcases List.mem_cons.mp hm with h | hm
    · exact b64Char_ne_nl _ h.symm
    rcases List.mem_cons.mp hm with h | hm
    · exact b64Char_ne_nl _ h.symm
    rcases List.mem_cons.mp hm with h | hm
    · exact b64Char_ne_nl _ h.symm
    rcases List.mem_cons.mp hm with h | hm
    · exact b64Char_ne_nl _ h.symm
    exact ih hm

lemma unpackBase64_ne_nl (bs : List Nat) : '\n' ∉ (unpackBase64 bs).data :=
  base64Encode_ne_nl bs

lemma digitChar_ne_nl (n : Nat) : Nat.digitChar n ≠ '\n' := by
  rcases Nat.lt_or_ge n 16 with h | h
  · interval_cases n <;> decide
  · have h0 : n ≠ 0 := by omega
    have h1 : n ≠ 1 := by omega
    have h2 : n ≠ 2 := by omega
    have h3 : n ≠ 3 := by omega
    have h4 : n ≠ 4 := by omega
    have h5 : n ≠ 5 := by omega
    have h6 : n ≠ 6 := by omega
    have h7 : n ≠ 7 := by omega
    have h8 : n ≠ 8 := by omega
    have h9 : n ≠ 9 := by omega
    have h10 : n ≠ 10 := by omega
    have h11 : n ≠ 11 := by omega
    have h12 : n ≠ 12 := by omega
    have h13 : n ≠ 13 := by omega
    have h14 : n ≠ 14 := by omega
    have h15 : n ≠ 15 := by omega
    simp only [Nat.digitChar, h0, h1, h2, h3, h4, h5, h6, h7, h8, h9, h10, h11, h12,
      h13, h14, h15, if_false, ite_false]
    decide

lemma toDigitsCore_mem (b : Nat) (f : Nat) :
    ∀ (n : Nat) (acc : List Char), ∀ c ∈ Nat.toDigitsCore b f n acc,
      c ∈ acc ∨ ∃ m, c = Nat.digitChar m := by
  induction f with
  | zero => intro n acc c hc; exact Or.inl hc
  | succ fuel ih =>
    intro n acc c hc
    simp only [Nat.toDigitsCore] at hc
    by_cases h : n / b = 0
    · rw [if_pos h] at hc
      rcases List.mem_cons.mp hc with he | hm
      · exact Or.inr ⟨n % b, he⟩
      · exact Or.inl hm
    · rw [if_neg h] at hc
      rcases ih (n / b) (Nat.digitChar (n % b) :: acc) c hc with hm | hd
      · rcases List.mem_cons.mp hm with he | hm2
        · exact Or.inr ⟨n % b, he⟩
        · exact Or.inl hm2
      · exact Or.inr hd

lemma repr_ne_nl (n : Nat) : '\n' ∉ (Nat.repr n).data := by
  intro h
  rcases toDigitsCore_mem 10 (n + 1) n [] '\n' h with hm | ⟨m, hm⟩
  · exact absurd hm (List.not_mem_nil _)
  · exact digitChar_ne_nl m hm.symm

lemma Alg_str_ne_nl (a : Nat) : '\n' ∉ (Alg_str a).data := by
  unfold Alg_str
  repeat' split
  all_goals decide

lemma noNl_append {s t : String} (hs : '\n' ∉ s.data) (ht : '\n' ∉ t.data) :
    '\n' ∉ (s ++ t).data := by
  rw [String.data_append]
  simp [List.mem_append, hs, ht]

/-- C2: for every RSA private key, the text returned by
`PrivateKeyString` begins with the literal line `Private-key-format: v1.3`
and consists of exactly nine `Key: Value` lines after it, in the fixed
order Algorithm, Modules (verbatim, not `Modulus`), PublicExponent,
PrivateExponent, Prime1, Prime2, Exponent1, Exponent2, Coefficient — each
big-integer value rendered as standard base64 of its big-endian
minimal-length byte representation (the trailing empty segment reflects
the terminating newline). -/
theorem privateKeyString_rsa_lines (r : RR_DNSKEY) (t : RsaPrivateKey) :
    splitOnNl (PrivateKeyString r (.rsa t)).data =
      [("Private-key-format: v1.3" : String).data,
       ("Algorithm: " ++ Nat.repr r.Algorithm ++ " (" ++ Alg_str r.Algorithm ++ ")").data,
       ("Modules: " ++ unpackBase64 (natBytes t.N)).data,
       ("PublicExponent: " ++ unpackBase64 (natBytes t.E)).data,
       ("PrivateExponent: " ++ unpackBase64 (natBytes t.D)).data,
       ("Prime1: " ++ unpackBase64 (natBytes t.Primes.1)).data,
       ("Prime2: " ++ unpackBase64 (natBytes t.Primes.2)).data,
       ("Exponent1: " ++ unpackBase64 (natBytes (exponent1 t))).data,
       ("Exponent2: " ++ unpackBase64 (natBytes (exponent2 t))).data,
       ("Coefficient: " ++ unpackBase64 (natBytes (coefficient t))).data,
       ([] : List Char)] ∧
    ∃ rest, PrivateKeyString r (.rsa t) = "Private-key-format: v1.3\n" ++ rest := by
  have hL2 : '\n' ∉ ("Algorithm: " ++ Nat.repr r.Algorithm ++ " (" ++
      Alg_str r.Algorithm ++ ")" : String).data :=
    noNl_append (noNl_append (noNl_append (noNl_append (by decide) (repr_ne_nl _))
      (by decide)) (Alg_str_ne_nl _)) (by decide)
  have hM : ∀ label : String, '\n' ∉ label.data → ∀ bs : List Nat,
      '\n' ∉ (label ++ unpackBase64 bs).data :=
    fun _ hl bs => noNl_append hl (unpackBase64_ne_nl bs)
  have hs : PrivateKeyString r (.rsa t) =
      "Private-key-format: v1.3" ++ "\n" ++
      ("Algorithm: " ++ Nat.repr r.Algorithm ++ " (" ++ Alg_str r.Algorithm ++ ")" ++ "\n" ++
      ("Modules: " ++ unpackBase64 (natBytes t.N) ++ "\n" ++
      ("PublicExponent: " ++ unpackBase64 (natBytes t.E) ++ "\n" ++
      ("PrivateExponent: " ++ unpackBase64 (natBytes t.D) ++ "\n" ++
      ("Prime1: " ++ unpackBase64 (natBytes t.Primes.1) ++ "\n" ++
      ("Prime2: " ++ unpackBase64 (natBytes t.Primes.2) ++ "\n" ++
      ("Exponent1: " ++ unpackBase64 (natBytes (exponent1 t)) ++ "\n" ++
      ("Exponent2: " ++ unpackBase64 (natBytes (exponent2 t)) ++ "\n" ++
      ("Coefficient: " ++ unpackBase64 (natBytes (coefficient t)) ++ "\n" ++
      ""))))))))) := by
    apply String.ext
    simp [PrivateKeyString, String.data_append, List.append_assoc]
  constructor
  · rw [hs]
    rw [splitOnNl_line _ _ (by decide)]
    rw [splitOnNl_line _ _ hL2]
    rw [splitOnNl_line _ _ (hM "Modules: " (by decide) _)]
    rw [splitOnNl_line _ _ (hM "PublicExponent: " (by decide) _)]
    rw [splitOnNl_line _ _ (hM "PrivateExponent: " (by decide) _)]
    rw [splitOnNl_line _ _ (hM "Prime1: " (by decide) _)]
    rw [splitOnNl_line _ _ (hM "Prime2: " (by decide) _)]
    rw [splitOnNl_line _ _ (hM "Exponent1: " (by decide) _)]
    rw [splitOnNl_line _ _ (hM "Exponent2: " (by decide) _)]
    rw [splitOnNl_line _ _ (hM "Coefficient: " (by decide) _)]
    rfl
  · have hlit : ("Private-key-format: v1.3\n" : String) =
        "Private-key-format: v1.3" ++ "\n" := by decide
    exact ⟨_, by rw [hs, hlit]⟩
